import Mathlib

/-!
Shallow embedding of the tempo-bucketing playlist organizer
(`src/tempo_organizer.py` and `src/spotipy_client.py`).

Tempo and energy values are modelled as rationals (`ℚ`): Python's `/` on
integers produces an exact half for the values involved, and all comparisons
the code performs are order comparisons that rationals model exactly.
Python `int` fields are modelled as `ℤ`.
-/

/-- `TempoPlaylist` dataclass from `tempo_organizer.py` (lines 6–24).
`track_ids` is a Python `set`; it is modelled as a duplicate-free list built
by `add_track`. -/
structure TempoPlaylist where
  low_tempo : ℤ
  high_tempo : ℤ
  name : String
  id : String
  track_ids : List String
  deriving DecidableEq, Repr

/-- The default name computed in `TempoPlaylist.__post_init__`:
`f"auto-playlist-by-tempo [{low}, {high}]"`. -/
def defaultPlaylistName (low high : ℤ) : String :=
  "auto-playlist-by-tempo [" ++ toString low ++ ", " ++ toString high ++ "]"

/-- Constructing `TempoPlaylist(low, high)` with the defaulted fields, as
`__post_init__` leaves it (empty name replaced by the default). -/
def mkTempoPlaylist (low high : ℤ) : TempoPlaylist :=
  { low_tempo := low
    high_tempo := high
    name := defaultPlaylistName low high
    id := ""
    track_ids := [] }

/-- `TempoPlaylist.is_tempo_in_range` (lines 18–21): `low <= tempo <= high`.
The tempo may be fractional after the energy halving in `categorize_track`,
matching Python's mixed `int`/`float` comparison. -/
def TempoPlaylist.is_tempo_in_range (p : TempoPlaylist) (tempo : ℚ) : Bool :=
  ((p.low_tempo : ℚ) ≤ tempo) && (tempo ≤ (p.high_tempo : ℚ))

/-- `TempoPlaylist.add_track` (lines 23–24): Python `set.add`, a no-op when
the id is already present. -/
def TempoPlaylist.add_track (p : TempoPlaylist) (track_id : String) : TempoPlaylist :=
  if track_id ∈ p.track_ids then p
  else { p with track_ids := p.track_ids ++ [track_id] }

/-- Exact halving on rationals, written so that it evaluates by kernel
reduction; `ratHalf_eq_div_two` below proves it is exactly `q / 2`, the
value Python's `tempo / 2` computes. -/
def ratHalf (q : ℚ) : ℚ := mkRat q.num (q.den * 2)

/-- Number of elements of Python's `range(s, e, step)`. -/
def pythonRangeLen (s e step : ℤ) : ℕ :=
  if 0 < step then ((e - s + step - 1) / step).toNat
  else if step < 0 then ((s - e - step - 1) / (-step)).toNat
  else 0

/-- Python's `range(s, e, step)` as a list: `s, s+step, ...` of
`pythonRangeLen s e step` elements (empty when the bounds are crossed;
`step = 0` raises in Python and is handled by `tempoOrganizerPostInit`). -/
def pythonRange (s e step : ℤ) : List ℤ :=
  (List.range (pythonRangeLen s e step)).map (fun k : ℕ => s + step * (k : ℤ))

/-- The stepping rule as the spec words it: starting at `t`, emit one value
per step and continue while `t < e`, stepping by `i`. Used to compare the
spec's description of the mid-range loop with `pythonRange`. -/
def stepsFrom (e i t : ℤ) : List ℤ :=
  if _h : 0 < i ∧ t < e then t :: stepsFrom e i (t + i) else []
  termination_by (e - t).toNat
  decreasing_by omega

/-- The playlist list built by `TempoOrganizer.__post_init__` (lines 39–46):
a first range `[0, start-1]`, one range `[t, t+increment-1]` per `t` in
`range(start, end, increment)`, and a final range `[end, max-1]`. -/
def initPlaylists (start_tempo end_tempo increment max_tempo : ℤ) : List TempoPlaylist :=
  [mkTempoPlaylist 0 (start_tempo - 1)]
    ++ (pythonRange start_tempo end_tempo increment).map
        (fun t => mkTempoPlaylist t (t + increment - 1))
    ++ [mkTempoPlaylist end_tempo (max_tempo - 1)]

/-- `TempoOrganizer.__post_init__` as a fallible construction step: the only
error Python can raise here is `range()`'s rejection of a zero step; no
other configuration validation is performed by the code. -/
def tempoOrganizerPostInit (start_tempo end_tempo increment max_tempo : ℤ) :
    Except String (List TempoPlaylist) :=
  if increment = 0 then .error "range() arg 3 must not be zero"
  else .ok (initPlaylists start_tempo end_tempo increment max_tempo)

/-- `TempoOrganizer` dataclass (lines 27–46). -/
structure TempoOrganizer where
  start_tempo : ℤ
  end_tempo : ℤ
  increment : ℤ
  energy_threashold : ℚ
  playlists : List TempoPlaylist
  max_tempo : ℤ
  deriving DecidableEq, Repr

/-- `TempoOrganizer(start, end, increment)` with the dataclass defaults
(`energy_threashold = 0.6`, `max_tempo = 300`) and the playlists built by
`__post_init__`. -/
def mkTempoOrganizer (start_tempo end_tempo increment : ℤ) : TempoOrganizer :=
  { start_tempo := start_tempo
    end_tempo := end_tempo
    increment := increment
    energy_threashold := mkRat 6 10
    playlists := initPlaylists start_tempo end_tempo increment 300
    max_tempo := 300 }

/-- The energy correction inlined at lines 52–53 of `categorize_track`:
halve the tempo (`ratHalf tempo = tempo / 2` by `ratHalf_eq_div_two`) when
`energy < energy_threashold`, else leave it unchanged. -/
def effectiveTempo (tempo energy threshold : ℚ) : ℚ :=
  if energy < threshold then ratHalf tempo else tempo

/-- The message of the `ValueError` raised at lines 56–58:
`f"Track tempo is higher than maximum allowed tempo {self.max_tempo}"`. -/
def tempoErrorMessage (max_tempo : ℤ) : String :=
  "Track tempo is higher than maximum allowed tempo " ++ toString max_tempo

/-- `TempoOrganizer.categorize_track` (lines 48–62), modelled as explicit
state passing: the first component is the raised `ValueError`'s message
(`none` when the method returns normally), the second the organizer after
the call. The `raise` precedes the scan loop, so in the error case the
organizer is returned untouched. The scan over `self.playlists` has no
`break`: every playlist whose range contains the effective tempo receives
the track. -/
def TempoOrganizer.categorize_track (org : TempoOrganizer) (track_id : String)
    (tempo : ℚ) (energy : ℚ) : Option String × TempoOrganizer :=
  let t := if energy < org.energy_threashold then ratHalf tempo else tempo
  if (org.max_tempo : ℚ) ≤ t then
    (some (tempoErrorMessage org.max_tempo), org)
  else
    (none,
      { org with
        playlists := org.playlists.map
          (fun p => if p.is_tempo_in_range t then p.add_track track_id else p) })

/-! ## `spotipy_client.py`

The remote service's state visible to each method is passed explicitly:
a method that first fetches data and then acts on it becomes a function of
the fetched data, returning the remote calls it would issue. -/

/-- One playlist record as returned by `get_current_user_playlists`: the
fields the client reads (`id`, `name`, `owner.id`, `tracks.total`). -/
structure PlaylistInfo where
  id : String
  name : String
  owner_id : String
  tracks_total : ℕ
  deriving DecidableEq, Repr

/-- The filtering performed by `get_current_user_playlists` (lines 55–94) on
the paginated list the API returned: drop playlists whose id or name is in
`excluded_playlists`, then, when `owned_playlist_only`, keep only those
owned by the current user. -/
def get_current_user_playlists (current_user_id : String)
    (owned_playlist_only : Bool) (excluded_playlists : List String)
    (fetched : List PlaylistInfo) : List PlaylistInfo :=
  let afterExclude :=
    if excluded_playlists.isEmpty then fetched
    else fetched.filter
      (fun p => p.id ∉ excluded_playlists && p.name ∉ excluded_playlists)
  if owned_playlist_only then
    afterExclude.filter (fun p => p.owner_id = current_user_id)
  else afterExclude

/-- `SpotipyClient.create_playlist` (lines 96–123). `existing` is what
`get_current_user_playlists(owned_playlist_only=True)` returned; `fresh` is
the record the remote `user_playlist_create` call would produce. Returns the
playlist record and whether a create call was issued. -/
def create_playlist (existing : List PlaylistInfo) (playlist_name : String)
    (fresh : PlaylistInfo) : PlaylistInfo × Bool :=
  match existing.find? (fun p => p.name = playlist_name) with
  | some p => (p, false)
  | none => (fresh, true)

/-- `SpotipyClient.add_tracks_to_playlist` (lines 223–236).
`tracks_in_playlist` is what `get_tracks_from_playlist` returned for this
playlist. Returns `none` when no `playlist_add_items` call is issued, and
`some items` with the exact items of the single call otherwise. -/
def add_tracks_to_playlist (tracks_in_playlist : List String)
    (track_ids : List String) : Option (List String) :=
  let track_ids_to_add :=
    track_ids.filter (fun track_id => track_id ∉ tracks_in_playlist)
  if track_ids_to_add.isEmpty then none else some track_ids_to_add

/-- `SpotipyClient.unfollow_empty_playlists` (lines 125–139). `fetched` is
the full paginated playlist library; the method calls
`get_current_user_playlists()` with its defaults (no owner filter, no
exclusions) and unfollows each playlist with `tracks.total == 0`. Returns
the ids of the unfollow calls issued, in order. -/
def unfollow_empty_playlists (current_user_id : String)
    (fetched : List PlaylistInfo) : List String :=
  ((get_current_user_playlists current_user_id false [] fetched).filter
      (fun p => p.tracks_total = 0)).map (fun p => p.id)

/-- The audio-features record the Spotify API returns for one track, with the
fields `get_several_tracks_audio_features` reads. `none` models the `null`
the API returns for an unknown id. -/
structure AudioFeatures where
  id : String
  tempo : ℚ
  energy : ℚ
  danceability : ℚ
  deriving DecidableEq, Repr

/-- The record `get_several_tracks_audio_features` builds per non-null
response entry (line 211–216); `tempo` is rounded with Python's `round`. -/
structure TrackFeatures where
  id : String
  tempo : ℤ
  energy : ℚ
  danceability : ℚ
  deriving DecidableEq, Repr

/-- Python's `round` on an exact value: round half to even. -/
def pythonRound (q : ℚ) : ℤ :=
  let f := ⌊q⌋
  let r := q - (f : ℚ)
  if r < 1/2 then f
  else if (1/2 : ℚ) < r then f + 1
  else if f % 2 = 0 then f else f + 1

/-- The per-entry conversion at lines 211–216. -/
def toTrackFeatures (a : AudioFeatures) : TrackFeatures :=
  { id := a.id
    tempo := pythonRound a.tempo
    energy := a.energy
    danceability := a.danceability }

/-- `SpotipyClient._batch` (lines 238–245): successive `n`-sized chunks.
`islice` with `n = 0` yields an empty first batch, so the generator stops at
once and produces no chunks. -/
def batchChunks (n : ℕ) (xs : List α) : List (List α) :=
  if n = 0 then []
  else if xs.isEmpty then []
  else xs.take n :: batchChunks n (xs.drop n)
  termination_by xs.length
  decreasing_by
    rename_i hn hxs
    simp only [List.isEmpty_iff] at hxs
    have hpos := List.length_pos.mpr hxs
    simp only [List.length_drop]
    omega

/-- `SpotipyClient.get_several_tracks_audio_features` (lines 194–221).
`audio_features_api` models `self.sp.audio_features`: the remote response
for one batch of ids, with `none` for null entries. The code chunks the ids
into batches of 100, calls the API per batch, and keeps only truthy entries. -/
def get_several_tracks_audio_features
    (audio_features_api : List String → List (Option AudioFeatures))
    (track_ids : List String) : List TrackFeatures :=
  ((batchChunks 100 track_ids).map
      (fun batch => ((audio_features_api batch).filterMap id).map toTrackFeatures)).flatten

/-! ## String-containment helper (for reasoning about error messages) -/

/-- `matchesAt needle hay`: `needle` is an initial segment of `hay`. -/
def matchesAt : List Char → List Char → Bool
  | [], _ => true
  | _ :: _, [] => false
  | a :: as, b :: bs => a = b && matchesAt as bs

/-- `hasSubList needle hay`: `needle` occurs contiguously in `hay`. -/
def hasSubList (needle : List Char) : List Char → Bool
  | [] => matchesAt needle []
  | b :: bs => matchesAt needle (b :: bs) || hasSubList needle bs

/-- Substring containment on strings. -/
def containsSubstring (needle hay : String) : Bool :=
  hasSubList needle.data hay.data

/-! ## Helper lemmas -/

lemma ratHalf_eq_div_two (q : ℚ) : ratHalf q = q / 2 := by
  rw [ratHalf, Rat.mkRat_eq_div]
  push_cast
  rw [div_mul_eq_div_div, Rat.num_div_den]

lemma mkTempoOrganizer_threashold (s e i : ℤ) :
    (mkTempoOrganizer s e i).energy_threashold = 6/10 := by
  rw [mkTempoOrganizer]
  norm_num [Rat.mkRat_eq_div]

lemma pythonRangeLen_eq_zero_of_le {s e i : ℤ} (hi : 0 < i) (h : e ≤ s) :
    pythonRangeLen s e i = 0 := by
  unfold pythonRangeLen
  rw [if_pos hi, Int.toNat_eq_zero]
  calc (e - s + i - 1) / i ≤ (i - 1) / i :=
        Int.ediv_le_ediv hi (by omega)
    _ = 0 := Int.ediv_eq_zero_of_lt (by omega) (by omega)

lemma pythonRangeLen_eq_zero_of_neg {s e i : ℤ} (hi : i < 0) (h : s ≤ e) :
    pythonRangeLen s e i = 0 := by
  unfold pythonRangeLen
  rw [if_neg (by omega), if_pos hi, Int.toNat_eq_zero]
  calc (s - e - i - 1) / (-i) ≤ (-i - 1) / (-i) :=
        Int.ediv_le_ediv (by omega) (by omega)
    _ = 0 := Int.ediv_eq_zero_of_lt (by omega) (by omega)

lemma lt_pythonRangeLen_iff {s e i : ℤ} (hi : 0 < i) (k : ℕ) :
    k < pythonRangeLen s e i ↔ s + i * k < e := by
  unfold pythonRangeLen
  rw [if_pos hi]
  constructor
  · intro hk
    have h1 : ((k : ℤ) + 1) ≤ (e - s + i - 1) / i := by omega
    have h2 := (Int.le_ediv_iff_mul_le hi).mp h1
    nlinarith
  · intro hk
    have h1 : ((k : ℤ) + 1) * i ≤ e - s + i - 1 := by nlinarith
    have h2 := (Int.le_ediv_iff_mul_le hi).mpr h1
    omega

lemma mem_pythonRange_iff {s e i x : ℤ} :
    x ∈ pythonRange s e i ↔ ∃ k : ℕ, k < pythonRangeLen s e i ∧ x = s + i * k := by
  constructor
  · intro hx
    rcases List.mem_map.mp hx with ⟨k, hk, rfl⟩
    exact ⟨k, List.mem_range.mp hk, rfl⟩
  · rintro ⟨k, hk, rfl⟩
    exact List.mem_map.mpr ⟨k, List.mem_range.mpr hk, rfl⟩

lemma pythonRange_eq_nil_of_le {s e i : ℤ} (hi : 0 < i) (h : e ≤ s) :
    pythonRange s e i = [] := by
  simp [pythonRange, pythonRangeLen_eq_zero_of_le hi h]

lemma pythonRange_eq_nil_of_neg {s e i : ℤ} (hi : i < 0) (h : s ≤ e) :
    pythonRange s e i = [] := by
  simp [pythonRange, pythonRangeLen_eq_zero_of_neg hi h]

lemma pythonRangeLen_succ {s e i : ℤ} (hi : 0 < i) (h : s < e) :
    pythonRangeLen s e i = pythonRangeLen (s + i) e i + 1 := by
  unfold pythonRangeLen
  rw [if_pos hi, if_pos hi]
  have h1 : e - s + i - 1 = (e - (s + i) + i - 1) + 1 * i := by ring
  rw [h1, Int.add_mul_ediv_right _ _ (by omega : i ≠ 0)]
  have h2 : (0 : ℤ) ≤ (e - (s + i) + i - 1) / i := by
    apply Int.ediv_nonneg _ (by omega)
    omega
  omega

lemma pythonRange_cons {s e i : ℤ} (hi : 0 < i) (h : s < e) :
    pythonRange s e i = s :: pythonRange (s + i) e i := by
  unfold pythonRange
  rw [pythonRangeLen_succ hi h, List.range_succ_eq_map, List.map_cons, List.map_map]
  refine congrArg₂ List.cons (by push_cast; ring) ?_
  apply List.map_congr_left
  intro k _
  simp only [Function.comp_apply, Nat.succ_eq_add_one]
  push_cast
  ring

lemma pythonRange_eq_stepsFrom {e i : ℤ} (hi : 0 < i) :
    ∀ s : ℤ, pythonRange s e i = stepsFrom e i s := by
  intro s
  by_cases hse : s < e
  · rw [pythonRange_cons hi hse, stepsFrom, dif_pos ⟨hi, hse⟩,
      pythonRange_eq_stepsFrom hi (s + i)]
  · rw [pythonRange_eq_nil_of_le hi (by omega), stepsFrom,
      dif_neg (by omega)]
  termination_by s => (e - s).toNat
  decreasing_by omega

lemma mem_track_ids_add_track (p : TempoPlaylist) (tid tid' : String) :
    tid' ∈ (p.add_track tid).track_ids ↔ tid' ∈ p.track_ids ∨ tid' = tid := by
  unfold TempoPlaylist.add_track
  split
  · rename_i hmem
    constructor
    · exact Or.inl
    · rintro (h | h)
      · exact h
      · rw [h]
        exact hmem
  · simp [List.mem_append]

lemma add_track_low_tempo (p : TempoPlaylist) (tid : String) :
    (p.add_track tid).low_tempo = p.low_tempo := by
  unfold TempoPlaylist.add_track
  split <;> rfl

lemma add_track_high_tempo (p : TempoPlaylist) (tid : String) :
    (p.add_track tid).high_tempo = p.high_tempo := by
  unfold TempoPlaylist.add_track
  split <;> rfl

lemma forall₂_self_map {α : Type} (R : α → α → Prop) (l : List α) (f : α → α)
    (h : ∀ a ∈ l, R a (f a)) : List.Forall₂ R l (l.map f) := by
  rw [List.forall₂_map_right_iff]
  exact List.forall₂_same.mpr h

/-! ## Claims -/

/-- C10 (confirmed): with the default partition `build(50,155,15,300)`, the
track with raw tempo 159 and energy 0.5 (below the 0.6 threshold) has
effective tempo 159/2 = 79.5; `categorize_track` raises no error and adds
the track to no playlist (the organizer is returned unchanged): 79.5 falls
strictly between the high bound 79 of range (65, 79) and the low bound 80
of range (80, 94), so the track is silently dropped. -/
theorem c10_silent_drop :
    TempoOrganizer.categorize_track (mkTempoOrganizer 50 155 15) "t" 159 (mkRat 1 2) =
      (none, mkTempoOrganizer 50 155 15) ∧
    ((mkTempoOrganizer 50 155 15).playlists.all
        (fun p => p.track_ids.isEmpty)) = true ∧
    effectiveTempo 159 (mkRat 1 2) (mkTempoOrganizer 50 155 15).energy_threashold =
      159 / 2 ∧
    (mkRat 1 2 : ℚ) = 1/2 ∧
    ((mkTempoOrganizer 50 155 15).playlists.filter
        (fun p => p.is_tempo_in_range (ratHalf 159))).length = 0 ∧
    ((mkTempoOrganizer 50 155 15).playlists.filter
        (fun p => p.is_tempo_in_range 79)).map
        (fun p => (p.low_tempo, p.high_tempo)) = [(65, 79)] ∧
    ((mkTempoOrganizer 50 155 15).playlists.filter
        (fun p => p.is_tempo_in_range 80)).map
        (fun p => (p.low_tempo, p.high_tempo)) = [(80, 94)] := by
  refine ⟨by decide, by decide, ?_, by norm_num [Rat.mkRat_eq_div], by decide, by decide,
    by decide⟩
  rw [show effectiveTempo 159 (mkRat 1 2) (mkTempoOrganizer 50 155 15).energy_threashold =
        ratHalf 159 from by decide,
    ratHalf_eq_div_two]

/-- C1 (refuted as stated): with partition `build(50,155,20,300)` — an
increment that does not divide `end - start`, so the mid-range (150, 169)
overlaps the catch-all (155, 299) — classifying a track with effective
tempo 160 < 300 adds it to BOTH matching ranges: the scan loop has no
`break`, so it does not stop after the first match and the track is a
member of two ranges, not one. -/
theorem c1_first_match_fails :
    (TempoOrganizer.categorize_track (mkTempoOrganizer 50 155 20) "t1" 160 (mkRat 9 10)).1 =
      none ∧
    (((TempoOrganizer.categorize_track
          (mkTempoOrganizer 50 155 20) "t1" 160 (mkRat 9 10)).2.playlists.filter
        (fun p => "t1" ∈ p.track_ids)).map
        (fun p => (p.low_tempo, p.high_tempo))) = [(150, 169), (155, 299)] := by
  decide

/-- C1 (amended): when the effective tempo is below `max_tempo`,
`categorize_track` returns normally and adds the track id to EVERY range
whose bounds satisfy `low ≤ effective_tempo ≤ high` — the scan does not
stop at the first match, so when a mid-range overlaps the final catch-all
range the track becomes a member of each matching range (exactly one only
when the matching range is unique). -/
theorem c1_adds_to_every_matching_range (org : TempoOrganizer) (track_id : String)
    (tempo energy : ℚ)
    (h : effectiveTempo tempo energy org.energy_threashold < (org.max_tempo : ℚ)) :
    (org.categorize_track track_id tempo energy).1 = none ∧
    List.Forall₂
      (fun p p' : TempoPlaylist =>
        p'.low_tempo = p.low_tempo ∧ p'.high_tempo = p.high_tempo ∧
        (track_id ∈ p'.track_ids ↔
          (track_id ∈ p.track_ids ∨
            p.is_tempo_in_range (effectiveTempo tempo energy org.energy_threashold) = true)))
      org.playlists (org.categorize_track track_id tempo energy).2.playlists := by
  simp only [TempoOrganizer.categorize_track]
  rw [show (if energy < org.energy_threashold then ratHalf tempo else tempo) =
        effectiveTempo tempo energy org.energy_threashold from rfl]
  rw [if_neg (not_le.mpr h)]
  refine ⟨rfl, ?_⟩
  apply forall₂_self_map
  intro p _
  split
  · rename_i hin
    exact ⟨add_track_low_tempo p track_id, add_track_high_tempo p track_id,
      by simp [mem_track_ids_add_track, hin]⟩
  · rename_i hnotin
    simp only [Bool.not_eq_true] at hnotin
    exact ⟨rfl, rfl, by simp [hnotin]⟩

/-- Witness for the amended C1 at a concrete input: tempo 100, energy 0.9
(not halved), default partition; the hypothesis 100 < 300 is discharged by
evaluation. -/
theorem c1_adds_to_every_matching_range_witness :
    ((mkTempoOrganizer 50 155 15).categorize_track "t" 100 (mkRat 9 10)).1 = none ∧
    List.Forall₂
      (fun p p' : TempoPlaylist =>
        p'.low_tempo = p.low_tempo ∧ p'.high_tempo = p.high_tempo ∧
        (("t" ∈ p'.track_ids) ↔
          (("t" ∈ p.track_ids) ∨
            p.is_tempo_in_range
              (effectiveTempo 100 (mkRat 9 10)
                (mkTempoOrganizer 50 155 15).energy_threashold) = true)))
      (mkTempoOrganizer 50 155 15).playlists
      ((mkTempoOrganizer 50 155 15).categorize_track "t" 100 (mkRat 9 10)).2.playlists :=
  c1_adds_to_every_matching_range (mkTempoOrganizer 50 155 15) "t" 100 (mkRat 9 10)
    (by decide)

/-- C4 (confirmed): the effective tempo equals `t / 2` when
`energy < threshold` and equals `t` unchanged otherwise; in particular
energy exactly equal to the threshold does not halve, and for `t ≠ 0` the
halving happens precisely when `energy < threshold`. -/
theorem c4_effective_tempo_halving (t energy threshold : ℚ) :
    (energy < threshold → effectiveTempo t energy threshold = t / 2) ∧
    (¬ energy < threshold → effectiveTempo t energy threshold = t) ∧
    effectiveTempo t threshold threshold = t ∧
    (t ≠ 0 → (effectiveTempo t energy threshold = t / 2 ↔ energy < threshold)) := by
  refine ⟨?_, ?_, ?_, ?_⟩
  · intro h
    rw [effectiveTempo, if_pos h, ratHalf_eq_div_two]
  · intro h
    rw [effectiveTempo, if_neg h]
  · rw [effectiveTempo, if_neg (lt_irrefl threshold)]
  · intro ht
    constructor
    · intro heq
      by_contra hlt
      rw [effectiveTempo, if_neg hlt] at heq
      have : t = 0 := by linarith [heq]
      exact ht this
    · intro h
      rw [effectiveTempo, if_pos h, ratHalf_eq_div_two]

/-- Witness for C4 at concrete inputs: tempo 159 with energy 0.5 is halved
(threshold 0.6), tempo 159 with energy 0.6 is not. -/
theorem c4_effective_tempo_halving_witness :
    effectiveTempo 159 (1/2) (6/10) = 159 / 2 ∧
    effectiveTempo 159 (6/10) (6/10) = 159 := by
  constructor
  · exact (c4_effective_tempo_halving 159 (1/2) (6/10)).1 (by norm_num)
  · exact (c4_effective_tempo_halving 159 (6/10) (6/10)).2.2.1

/-- C5 (refuted as stated): classifying raw tempo 600 with energy 0.9
(not halved) against `max_tempo = 300` raises the error with message
"Track tempo is higher than maximum allowed tempo 300": the decimal
representation of the configured maximum (300) occurs in the message, but
the offending tempo (600) does not — the message does not identify the
offending tempo. -/
theorem c5_message_lacks_tempo :
    TempoOrganizer.categorize_track (mkTempoOrganizer 50 155 15) "t" 600 (mkRat 9 10) =
      (some (tempoErrorMessage 300), mkTempoOrganizer 50 155 15) ∧
    tempoErrorMessage 300 =
      "Track tempo is higher than maximum allowed tempo 300" ∧
    containsSubstring "300" (tempoErrorMessage 300) = true ∧
    containsSubstring "600" (tempoErrorMessage 300) = false := by
  refine ⟨by decide, rfl, by decide, by decide⟩

/-- C5 (amended): `categorize_track` raises the error precisely when the
effective tempo is at least `max_tempo`; the raised message identifies the
configured maximum (it is the fixed text followed by `max_tempo`'s decimal
form) but not the offending tempo; and in the error case the organizer —
and so every range's membership set — is returned unchanged. -/
theorem c5_error_iff_exceeds_max (org : TempoOrganizer) (track_id : String)
    (tempo energy : ℚ) :
    (((org.max_tempo : ℚ) ≤ effectiveTempo tempo energy org.energy_threashold) →
      org.categorize_track track_id tempo energy =
        (some (tempoErrorMessage org.max_tempo), org)) ∧
    ((effectiveTempo tempo energy org.energy_threashold < (org.max_tempo : ℚ)) →
      (org.categorize_track track_id tempo energy).1 = none) ∧
    (∀ msg, (org.categorize_track track_id tempo energy).1 = some msg →
      msg = "Track tempo is higher than maximum allowed tempo " ++
        toString org.max_tempo ∧
      (org.categorize_track track_id tempo energy).2 = org) := by
  simp only [TempoOrganizer.categorize_track]
  rw [show (if energy < org.energy_threashold then ratHalf tempo else tempo) =
        effectiveTempo tempo energy org.energy_threashold from rfl]
  refine ⟨?_, ?_, ?_⟩
  · intro h
    rw [if_pos h]
  · intro h
    rw [if_neg (not_le.mpr h)]
  · intro msg hmsg
    by_cases h : (org.max_tempo : ℚ) ≤ effectiveTempo tempo energy org.energy_threashold
    · rw [if_pos h] at hmsg ⊢
      refine ⟨?_, rfl⟩
      simpa [tempoErrorMessage] using hmsg.symm
    · rw [if_neg h] at hmsg
      cases hmsg

/-- Witness for the amended C5 at raw tempo 600, energy 0.9, max 300: the
effective tempo 600 exceeds the maximum, the error is raised with the
organizer unchanged. -/
theorem c5_error_iff_exceeds_max_witness :
    (mkTempoOrganizer 50 155 15).categorize_track "t" 600 (mkRat 9 10) =
      (some (tempoErrorMessage (mkTempoOrganizer 50 155 15).max_tempo),
        mkTempoOrganizer 50 155 15) :=
  (c5_error_iff_exceeds_max (mkTempoOrganizer 50 155 15) "t" 600 (mkRat 9 10)).1
    (by decide)

/-- C6 (refuted as stated): `__post_init__` performs no configuration
validation. With `start = 100 ≥ end = 50` (and a positive increment)
construction succeeds with no error, silently producing the degenerate
two-range partition [(0, 99), (50, 299)]; a negative increment likewise
constructs [(0, 49), (155, 299)] without raising. -/
theorem c6_no_configuration_error :
    tempoOrganizerPostInit 100 50 15 300 =
      .ok [mkTempoPlaylist 0 99, mkTempoPlaylist 50 299] ∧
    tempoOrganizerPostInit 50 155 (-15) 300 =
      .ok [mkTempoPlaylist 0 49, mkTempoPlaylist 155 299] := by
  constructor <;> rfl

/-- C6 (amended): construction never validates `start < end` or
`increment > 0`. It fails only for `increment = 0` (Python's `range`
rejects a zero step); for any nonzero increment it succeeds, and in the
invalid configurations (`start ≥ end` with positive increment, or negative
increment with `start ≤ end`) the mid-range loop is empty, so the partition
degenerates to just the first and last ranges — no error is raised. -/
theorem c6_construction_total_unless_zero_step (s e i m : ℤ) :
    (i = 0 → tempoOrganizerPostInit s e i m =
      .error "range() arg 3 must not be zero") ∧
    (i ≠ 0 → tempoOrganizerPostInit s e i m = .ok (initPlaylists s e i m)) ∧
    (0 < i → e ≤ s → initPlaylists s e i m =
      [mkTempoPlaylist 0 (s - 1), mkTempoPlaylist e (m - 1)]) ∧
    (i < 0 → s ≤ e → initPlaylists s e i m =
      [mkTempoPlaylist 0 (s - 1), mkTempoPlaylist e (m - 1)]) := by
  refine ⟨?_, ?_, ?_, ?_⟩
  · intro h
    rw [tempoOrganizerPostInit, if_pos h]
  · intro h
    rw [tempoOrganizerPostInit, if_neg h]
  · intro hi h
    rw [initPlaylists, pythonRange_eq_nil_of_le hi h]
    rfl
  · intro hi h
    rw [initPlaylists, pythonRange_eq_nil_of_neg hi h]
    rfl

/-- Witness for the amended C6 at the concrete invalid configuration
`start = 100, end = 50, increment = 15`: construction succeeds and yields
the degenerate partition. -/
theorem c6_construction_total_unless_zero_step_witness :
    tempoOrganizerPostInit 100 50 15 300 = .ok (initPlaylists 100 50 15 300) ∧
    initPlaylists 100 50 15 300 = [mkTempoPlaylist 0 99, mkTempoPlaylist 50 299] := by
  constructor
  · exact (c6_construction_total_unless_zero_step 100 50 15 300).2.1 (by decide)
  · exact (c6_construction_total_unless_zero_step 100 50 15 300).2.2.1 (by decide) (by decide)

/-- C2 (confirmed): for any positive increment, `__post_init__` produces
exactly a first range [0, start-1], then one range [t, t+increment-1] for
each t stepping from start by increment while t < end (`stepsFrom` is that
stepping rule verbatim), then a final range [end, max-1]; and
build(50,155,15,300) yields the nine literal ranges
(0,49),(50,64),...,(140,154),(155,299). -/
theorem c2_partition_shape (s e i m : ℤ) (hi : 0 < i) :
    initPlaylists s e i m =
      mkTempoPlaylist 0 (s - 1) ::
        ((stepsFrom e i s).map (fun t => mkTempoPlaylist t (t + i - 1)) ++
          [mkTempoPlaylist e (m - 1)]) ∧
    initPlaylists 50 155 15 300 =
      [mkTempoPlaylist 0 49, mkTempoPlaylist 50 64, mkTempoPlaylist 65 79,
       mkTempoPlaylist 80 94, mkTempoPlaylist 95 109, mkTempoPlaylist 110 124,
       mkTempoPlaylist 125 139, mkTempoPlaylist 140 154, mkTempoPlaylist 155 299] := by
  constructor
  · rw [initPlaylists, pythonRange_eq_stepsFrom hi]
    rfl
  · decide

/-- Witness for C2 at the concrete configuration (50, 155, 15, 300). -/
theorem c2_partition_shape_witness :
    initPlaylists 50 155 15 300 =
      mkTempoPlaylist 0 (50 - 1) ::
        ((stepsFrom 155 15 50).map (fun t => mkTempoPlaylist t (t + 15 - 1)) ++
          [mkTempoPlaylist 155 (300 - 1)]) :=
  (c2_partition_shape 50 155 15 300 (by decide)).1

/-- C7 (confirmed): `create_playlist` returns the first existing owned
playlist with the requested name and issues no create call when one exists;
`add_tracks_to_playlist` issues an add call exactly for the requested ids
not already in the playlist, and no call at all when that subset is empty —
so a second run with identical membership issues no duplicate create or
add calls. -/
theorem c7_reconcile_idempotent (existing : List PlaylistInfo)
    (playlist_name : String) (fresh : PlaylistInfo)
    (tracks_in_playlist track_ids : List String) :
    (playlist_name ∈ existing.map PlaylistInfo.name →
      (create_playlist existing playlist_name fresh).2 = false ∧
      (create_playlist existing playlist_name fresh).1 ∈ existing ∧
      (create_playlist existing playlist_name fresh).1.name = playlist_name) ∧
    ((∀ t ∈ track_ids, t ∈ tracks_in_playlist) →
      add_tracks_to_playlist tracks_in_playlist track_ids = none) ∧
    (∀ items, add_tracks_to_playlist tracks_in_playlist track_ids = some items →
      items = track_ids.filter (fun t => t ∉ tracks_in_playlist) ∧
      items ≠ [] ∧ ∀ t ∈ items, t ∉ tracks_in_playlist) := by
  refine ⟨?_, ?_, ?_⟩
  · intro hname
    rcases List.mem_map.mp hname with ⟨q, hq, hqname⟩
    unfold create_playlist
    rcases hfind : existing.find? (fun p => p.name = playlist_name) with _ | p
    · exfalso
      have hnone := List.find?_eq_none.mp hfind q hq
      simp [hqname] at hnone
    · rw [hfind]
      refine ⟨rfl, List.mem_of_find?_eq_some hfind, ?_⟩
      have := List.find?_some hfind
      simpa using this
  · intro hsub
    have hfil : track_ids.filter (fun t => t ∉ tracks_in_playlist) = [] := by
      rw [List.filter_eq_nil_iff]
      intro t ht
      simpa using hsub t ht
    simp only [add_tracks_to_playlist]
    rw [hfil]
    rfl
  · intro items hitems
    simp only [add_tracks_to_playlist] at hitems
    by_cases hemp : (track_ids.filter (fun t => t ∉ tracks_in_playlist)).isEmpty
    · rw [if_pos hemp] at hitems
      cases hitems
    · rw [if_neg hemp] at hitems
      have hit : items = track_ids.filter (fun t => t ∉ tracks_in_playlist) :=
        (Option.some_injective _ hitems).symm
      refine ⟨hit, ?_, ?_⟩
      · rw [hit]
        simpa [List.isEmpty_iff] using hemp
      · intro t ht
        rw [hit] at ht
        simpa using (List.mem_filter.mp ht).2

/-- Witness for C7: with an existing playlist named "A", creation reuses it
(no create call); with all requested tracks already present, no add call is
issued. -/
theorem c7_reconcile_idempotent_witness :
    ((create_playlist [⟨"id1", "A", "me", 3⟩] "A" ⟨"id2", "A", "me", 0⟩).2 = false ∧
      (create_playlist [⟨"id1", "A", "me", 3⟩] "A" ⟨"id2", "A", "me", 0⟩).1 ∈
        [(⟨"id1", "A", "me", 3⟩ : PlaylistInfo)] ∧
      (create_playlist [⟨"id1", "A", "me", 3⟩] "A" ⟨"id2", "A", "me", 0⟩).1.name = "A") ∧
    add_tracks_to_playlist ["x", "y"] ["x"] = none :=
  ⟨(c7_reconcile_idempotent [⟨"id1", "A", "me", 3⟩] "A" ⟨"id2", "A", "me", 0⟩
      ["x", "y"] ["x"]).1 (by decide),
   (c7_reconcile_idempotent [⟨"id1", "A", "me", 3⟩] "A" ⟨"id2", "A", "me", 0⟩
      ["x", "y"] ["x"]).2.1 (by decide)⟩

/-- C8 (refuted as stated): `unfollow_empty_playlists` calls
`get_current_user_playlists()` with its defaults, i.e. WITHOUT
`owned_playlist_only=True`, so a followed playlist owned by someone else
with 0 tracks also receives the unfollow call — the sweep is not limited to
playlists owned by the current user. -/
theorem c8_unfollows_unowned :
    unfollow_empty_playlists "me"
      [{ id := "p1", name := "not mine", owner_id := "other", tracks_total := 0 }] =
      ["p1"] ∧
    "other" ≠ "me" := by
  constructor
  · rfl
  · decide

/-- C8 (amended): `unfollow_empty_playlists` issues the unfollow call for
every playlist in the user's fetched playlist library — owned or merely
followed — whose total track count is 0, and only for such playlists,
regardless of whether the playlist was created during this run (the input
list is arbitrary). -/
theorem c8_unfollow_exactly_empty (current_user_id : String)
    (fetched : List PlaylistInfo) :
    unfollow_empty_playlists current_user_id fetched =
      (fetched.filter (fun p => p.tracks_total = 0)).map (fun p => p.id) ∧
    (∀ pid, pid ∈ unfollow_empty_playlists current_user_id fetched ↔
      ∃ p, p ∈ fetched ∧ p.tracks_total = 0 ∧ p.id = pid) := by
  have h1 : unfollow_empty_playlists current_user_id fetched =
      (fetched.filter (fun p => p.tracks_total = 0)).map (fun p => p.id) := rfl
  refine ⟨h1, ?_⟩
  intro pid
  rw [h1]
  constructor
  · intro hmem
    rcases List.mem_map.mp hmem with ⟨p, hp, rfl⟩
    rcases List.mem_filter.mp hp with ⟨hpf, hpt⟩
    exact ⟨p, hpf, by simpa using hpt, rfl⟩
  · rintro ⟨p, hpf, hpt, rfl⟩
    exact List.mem_map.mpr ⟨p, List.mem_filter.mpr ⟨hpf, by simpa using hpt⟩, rfl⟩

/-- Witness for the amended C8: a library with one empty owned playlist, one
empty followed (unowned) playlist and one non-empty playlist yields
unfollow calls for exactly the two empty ones. -/
theorem c8_unfollow_exactly_empty_witness :
    unfollow_empty_playlists "me"
      [⟨"p1", "mine empty", "me", 0⟩, ⟨"p2", "not mine", "other", 0⟩,
        ⟨"p3", "mine full", "me", 7⟩] =
      ([(⟨"p1", "mine empty", "me", 0⟩ : PlaylistInfo), ⟨"p2", "not mine", "other", 0⟩,
        ⟨"p3", "mine full", "me", 7⟩].filter
          (fun p => p.tracks_total = 0)).map (fun p => p.id) :=
  (c8_unfollow_exactly_empty "me"
    [⟨"p1", "mine empty", "me", 0⟩, ⟨"p2", "not mine", "other", 0⟩,
      ⟨"p3", "mine full", "me", 7⟩]).1

/-- Concatenating the successive chunks gives back the original list. -/
theorem batchChunks_flatten {α : Type} (n : ℕ) (hn : n ≠ 0) (xs : List α) :
    (batchChunks n xs).flatten = xs := by
  rw [batchChunks]
  split
  · rename_i h
    exact absurd h hn
  · split
    · rename_i hemp
      rw [List.isEmpty_iff.mp hemp]
      rfl
    · rw [List.flatten_cons, batchChunks_flatten n hn (xs.drop n), List.take_append_drop]
  termination_by xs.length
  decreasing_by
    rename_i hn0 hemp
    simp only [List.isEmpty_iff] at hemp
    have hpos := List.length_pos.mpr hemp
    simp only [List.length_drop]
    omega

/-- Every chunk produced by `_batch` has at most `n` elements. -/
theorem length_le_of_mem_batchChunks {α : Type} (n : ℕ) (b : List α) (xs : List α)
    (hb : b ∈ batchChunks n xs) : b.length ≤ n := by
  rw [batchChunks] at hb
  split at hb
  · cases hb
  · split at hb
    · cases hb
    · rcases List.mem_cons.mp hb with h | h
      · rw [h, List.length_take]
        omega
      · exact length_le_of_mem_batchChunks n b (xs.drop n) h
  termination_by xs.length
  decreasing_by
    rename_i hn0 hemp
    simp only [List.isEmpty_iff] at hemp
    have hpos := List.length_pos.mpr hemp
    simp only [List.length_drop]
    omega

/-- C9 (confirmed): the audio-feature lookup splits the id sequence into
consecutive batches of at most 100 ids whose in-order concatenation is the
original sequence, and every record in the result comes from a non-null
(`some`) entry of a batch response — null entries are skipped, never
included. -/
theorem c9_batching (track_ids : List String) :
    (∀ b ∈ batchChunks 100 track_ids, b.length ≤ 100) ∧
    (batchChunks 100 track_ids).flatten = track_ids ∧
    (∀ (audio_features_api : List String → List (Option AudioFeatures))
        (f : TrackFeatures),
      f ∈ get_several_tracks_audio_features audio_features_api track_ids →
      ∃ b ∈ batchChunks 100 track_ids, ∃ a : AudioFeatures,
        (some a) ∈ audio_features_api b ∧ f = toTrackFeatures a) := by
  refine ⟨fun b hb => length_le_of_mem_batchChunks 100 b track_ids hb,
    batchChunks_flatten 100 (by decide) track_ids, ?_⟩
  intro api f hf
  unfold get_several_tracks_audio_features at hf
  rcases List.mem_flatten.mp hf with ⟨l, hl, hfl⟩
  rcases List.mem_map.mp hl with ⟨b, hb, rfl⟩
  rcases List.mem_map.mp hfl with ⟨a, ha, rfl⟩
  rcases List.mem_filterMap.mp ha with ⟨o, ho, hoa⟩
  cases o with
  | none => cases hoa
  | some a' =>
    refine ⟨b, hb, a', ?_, ?_⟩
    · exact ho
    · cases hoa
      rfl

/-- Witness for C9 on a concrete two-element id list with an API that
returns one null: the single batch is the whole list, its flattening is the
input, and the null entry contributes nothing to the result. -/
theorem c9_batching_witness :
    (batchChunks 100 ["a", "b"]).flatten = ["a", "b"] ∧
    (["a", "b"] : List String).length ≤ 100 := by
  refine ⟨(c9_batching ["a", "b"]).2.1, ?_⟩
  refine (c9_batching ["a", "b"]).1 ["a", "b"] ?_
  rw [batchChunks]
  simp

/-- Bounds of the range-membership test under an integer tempo. -/
theorem is_tempo_in_range_intCast (p : TempoPlaylist) (t : ℤ) :
    p.is_tempo_in_range (t : ℚ) = true ↔ p.low_tempo ≤ t ∧ t ≤ p.high_tempo := by
  simp [TempoPlaylist.is_tempo_in_range]

lemma mkTempoPlaylist_low (l h : ℤ) : (mkTempoPlaylist l h).low_tempo = l := rfl

lemma mkTempoPlaylist_high (l h : ℤ) : (mkTempoPlaylist l h).high_tempo = h := rfl

/-- The low bounds of a built partition, in order: 0, the stepped values,
then `end_tempo`. -/
theorem map_low_initPlaylists (s e i m : ℤ) :
    (initPlaylists s e i m).map (fun p => p.low_tempo) =
      0 :: (pythonRange s e i ++ [e]) := by
  simp only [initPlaylists, List.map_append, List.map_map, List.map_cons, List.map_nil,
    List.cons_append, List.nil_append]
  congr 1
  · congr 1
    exact List.map_id'' (fun x => rfl) _

/-- The high bounds of a built partition, in order. -/
theorem map_high_initPlaylists (s e i m : ℤ) :
    (initPlaylists s e i m).map (fun p => p.high_tempo) =
      (s - 1) :: ((pythonRange s e i).map (fun t => t + i - 1) ++ [m - 1]) := by
  simp only [initPlaylists, List.map_append, List.map_map, List.map_cons, List.map_nil,
    List.cons_append, List.nil_append]
  rfl

/-- Elements of a positive-step Python range lie in `[s, e)`. -/
theorem mem_pythonRange_bounds {s e i x : ℤ} (hi : 0 < i)
    (hx : x ∈ pythonRange s e i) : s ≤ x ∧ x < e := by
  rcases mem_pythonRange_iff.mp hx with ⟨k, hk, rfl⟩
  have h1 := (lt_pythonRangeLen_iff hi k).mp hk
  constructor
  · nlinarith [Int.natCast_nonneg k]
  · omega

/-- C3 (refuted as stated): the claim's precondition admits `start = 0` and
increments that do not divide `end - start`. At build(0,155,20,300) —
satisfying 0 ≤ start < end ≤ max and increment > 0 — the low bounds are
0,0,20,...: NOT strictly increasing (the first range (0,-1) and the first
stepped range (0,19) share low 0); and the ranges are NOT non-overlapping:
tempo 156 lies in both (140,159) and (155,299). -/
theorem c3_disjointness_fails :
    ((0:ℤ) ≤ 0 ∧ (0:ℤ) < 155 ∧ (155:ℤ) ≤ 300 ∧ (0:ℤ) < 20) ∧
    ¬ List.Pairwise (· < ·)
        ((initPlaylists 0 155 20 300).map (fun p => p.low_tempo)) ∧
    ((initPlaylists 0 155 20 300).filter
        (fun p => p.is_tempo_in_range (156 : ℚ))).map
        (fun p => (p.low_tempo, p.high_tempo)) = [(140, 159), (155, 299)] := by
  refine ⟨by decide, by decide, by decide⟩

/-- C3 (amended): for 1 ≤ start < end ≤ max and increment > 0, the
partition's low bounds are strictly increasing, the first range's low is 0,
the last range's high is max-1, and every integer tempo in [0, max) lies in
at least one range. (Non-overlap does not hold in general: when the
increment does not divide end - start the last stepped range overlaps the
final catch-all range, and for start = 0 the first two lows coincide —
coverage is still complete, with first match being the well-defined one.) -/
theorem c3_partition_invariants (s e i m : ℤ) (h1 : 1 ≤ s) (h2 : s < e)
    (h3 : e ≤ m) (hi : 0 < i) :
    List.Pairwise (· < ·) ((initPlaylists s e i m).map (fun p => p.low_tempo)) ∧
    ((initPlaylists s e i m).map (fun p => p.low_tempo)).head? = some 0 ∧
    ((initPlaylists s e i m).map (fun p => p.high_tempo)).getLast? = some (m - 1) ∧
    (∀ t : ℤ, 0 ≤ t → t < m →
      ∃ p ∈ initPlaylists s e i m, p.is_tempo_in_range (t : ℚ) = true) := by
  refine ⟨?_, ?_, ?_, ?_⟩
  · rw [map_low_initPlaylists, List.pairwise_cons]
    constructor
    · intro a ha
      rcases List.mem_append.mp ha with h | h
      · have := (mem_pythonRange_bounds hi h).1
        omega
      · have := List.mem_singleton.mp h
        omega
    · rw [List.pairwise_append]
      refine ⟨?_, List.pairwise_singleton _ _, ?_⟩
      · rw [pythonRange, List.pairwise_map]
        refine (List.pairwise_lt_range _).imp ?_
        intro a b hab
        have hab' : (a:ℤ) < (b:ℤ) := by exact_mod_cast hab
        nlinarith
      · intro x hx y hy
        have hy' := List.mem_singleton.mp hy
        rw [hy']
        exact (mem_pythonRange_bounds hi hx).2
  · rw [map_low_initPlaylists]
    rfl
  · rw [map_high_initPlaylists,
      show (s - 1) :: ((pythonRange s e i).map (fun t => t + i - 1) ++ [m - 1]) =
        ((s - 1) :: (pythonRange s e i).map (fun t => t + i - 1)) ++ [m - 1] from rfl]
    exact List.getLast?_concat _
  · intro t ht0 htm
    by_cases hts : t < s
    · refine ⟨mkTempoPlaylist 0 (s - 1), ?_, ?_⟩
      · exact List.mem_append.mpr
          (Or.inl (List.mem_append.mpr (Or.inl (List.mem_singleton.mpr rfl))))
      · rw [is_tempo_in_range_intCast]
        simp only [mkTempoPlaylist_low, mkTempoPlaylist_high]
        omega
    · by_cases hte : t < e
      · push_neg at hts
        have hbpos : 0 < i.toNat := by omega
        obtain ⟨k, r, hkr, hr⟩ :
            ∃ k r : ℕ, i.toNat * k + r = (t - s).toNat ∧ r < i.toNat :=
          ⟨(t - s).toNat / i.toNat, (t - s).toNat % i.toNat,
            Nat.div_add_mod _ _, Nat.mod_lt _ hbpos⟩
        have hZ : i * (k:ℤ) + (r:ℤ) = t - s := by
          have h := congrArg (fun n : ℕ => (n : ℤ)) hkr
          push_cast at h
          have hiz : ((i.toNat : ℕ) : ℤ) = i := by omega
          have htz : (((t - s).toNat : ℕ) : ℤ) = t - s := by omega
          rw [hiz, htz] at h
          exact h
        have hri : ((r:ℕ) : ℤ) < i := by omega
        have hrnn : (0:ℤ) ≤ ((r:ℕ) : ℤ) := by omega
        have hlow : s + i * (k:ℤ) ≤ t := by linarith
        have hhigh : t ≤ s + i * (k:ℤ) + i - 1 := by linarith
        have hklen : k < pythonRangeLen s e i :=
          (lt_pythonRangeLen_iff hi k).mpr (by linarith)
        refine ⟨mkTempoPlaylist (s + i * (k:ℤ)) (s + i * (k:ℤ) + i - 1), ?_, ?_⟩
        · refine List.mem_append.mpr (Or.inl (List.mem_append.mpr (Or.inr ?_)))
          exact List.mem_map.mpr
            ⟨s + i * (k:ℤ), mem_pythonRange_iff.mpr ⟨k, hklen, rfl⟩, rfl⟩
        · rw [is_tempo_in_range_intCast]
          simp only [mkTempoPlaylist_low, mkTempoPlaylist_high]
          exact ⟨hlow, hhigh⟩
      · push_neg at hte
        refine ⟨mkTempoPlaylist e (m - 1), ?_, ?_⟩
        · exact List.mem_append.mpr (Or.inr (List.mem_singleton.mpr rfl))
        · rw [is_tempo_in_range_intCast]
          simp only [mkTempoPlaylist_low, mkTempoPlaylist_high]
          omega

/-- Witness for the amended C3 at (50, 155, 15, 300): strictly increasing
lows and coverage of the concrete tempo 100. -/
theorem c3_partition_invariants_witness :
    List.Pairwise (· < ·)
      ((initPlaylists 50 155 15 300).map (fun p => p.low_tempo)) ∧
    (∃ p ∈ initPlaylists 50 155 15 300,
      p.is_tempo_in_range ((100 : ℤ) : ℚ) = true) :=
  ⟨(c3_partition_invariants 50 155 15 300 (by decide) (by decide) (by decide)
      (by decide)).1,
   (c3_partition_invariants 50 155 15 300 (by decide) (by decide) (by decide)
      (by decide)).2.2.2 100 (by decide) (by decide)⟩
